import Mathlib

/-!
Shallow embedding of the diff engine of `drf_operation_log`
(`src/drf_operation_log/utils.py`, retrieval glue in
`src/drf_operation_log/mixins.py`).

Modelling conventions:
* Python scalar values are embedded as the inductive `Val`; the module-level
  sentinel `missing_value = object()` is the constructor `Val.vmissing`
  (truthy, equal only to itself, as a fresh `object()` is).
  Python `Model` instances appearing as values are `Val.vobj pk`
  (truthy; `==` compares identity/pk; `.pk` is the carried integer).
  Lazy `Manager` values never occur in this value universe, so the
  `isinstance(v_old, Manager)` branch of `serializer_changed_data_diff`
  can never fire and is not represented.
* Python dicts are association lists in insertion order with unique keys
  maintained by insert-with-overwrite; `dict.get` is first-match lookup.
* In-place mutation is modelled by state passing: a Python function that
  mutates its argument becomes a function returning the post-call value of
  that argument.  Python functions without a `return` statement return
  `None`; where that return value matters (`clean_excluded_fields`) it is
  modelled explicitly.
-/

namespace DrfOpLog

/-- Embedded Python scalar values. -/
inductive Val where
  | vstr : String → Val
  | vint : Int → Val
  | vbool : Bool → Val
  | vnone : Val
  | vmissing : Val
  | vobj : Int → Val
deriving DecidableEq, Repr

/-- Python truthiness of an embedded value (`bool(v)`);
the fresh `object()` sentinel and model instances are truthy. -/
def Val.truthy : Val → Bool
  | .vstr s => !s.isEmpty
  | .vint n => n != 0
  | .vbool b => b
  | .vnone => false
  | .vmissing => true
  | .vobj _ => true

/-- Canonical key under Python `==`/`hash`: `True == 1` and `False == 0`
because `bool` is an `int` subclass; all other values are equal only to
structurally equal values of the same kind. -/
def Val.pyKey : Val → Val
  | .vbool b => .vint (if b then 1 else 0)
  | v => v

/-- Python `==` on embedded values. -/
def Val.pyEq (a b : Val) : Bool := a.pyKey == b.pyKey

/-- The fixed masking token `CLEANED_SUBSTITUTE = "******"` (utils.py line 11). -/
def CLEANED_SUBSTITUTE : String := "******"

/-- The fixed baseline sensitive-name set of `clean_sensitive_data`
(utils.py lines 116-123), as a list (membership is what matters). -/
def SENSITIVE_BASE : List String :=
  ["api", "token", "key", "secret", "password", "signature"]

/-! ## `clean_sensitive_data` (utils.py lines 97-138)

The Python function is duck-typed over arbitrary JSON-ish data, so it is
embedded over a generic Python-data tree `PyData`.  It mutates its argument
in place; the embedding returns the post-call value.  Crucially, every
recursive call (`clean_sensitive_data(data.get("changed"))` etc.) passes no
second argument, and the default of `sensitive_fields` is the module-level
`sensitive_fields = {}` captured at `def` time, i.e. the empty set. -/

/-- Generic Python data tree: scalar, list, or string-keyed dict. -/
inductive PyData where
  | atom : Val → PyData
  | plist : List PyData → PyData
  | pdict : List (String × PyData) → PyData
deriving Repr

/-- Python `key in data` for an embedded dict's entry list. -/
def hasKey (kvs : List (String × PyData)) (k : String) : Bool :=
  kvs.any (fun e => e.1 == k)

/-- Python `data.get(k)` restricted to string payloads: `some s` when the
value at `k` is the string `s`, otherwise `none` (a non-string value is
never a member of a set of strings). -/
def getStrKey (kvs : List (String × PyData)) (k : String) : Option String :=
  match kvs.find? (fun e => e.1 == k) with
  | some (_, .atom (.vstr s)) => some s
  | _ => none

/-- Python `s in sensitiveSet` where `s` is `data.get(k)`:
false when the key is absent (`None`) or the value is not a string. -/
def optMem (o : Option String) (l : List String) : Bool :=
  match o with
  | some s => l.contains s
  | none => false

/-- Python `data.update({k: v})`: overwrite in place (keeping the key's
position) when present, append otherwise. -/
def setKey (kvs : List (String × PyData)) (k : String) (v : PyData) :
    List (String × PyData) :=
  if kvs.any (fun e => e.1 == k) then
    kvs.map (fun e => if e.1 == k then (k, v) else e)
  else kvs ++ [(k, v)]

/-- The masking payload written by `data.update({...: CLEANED_SUBSTITUTE})`. -/
def maskP : PyData := .atom (.vstr CLEANED_SUBSTITUTE)

/-- Python `str.lower()`, embedded as per-character lowering over the
string's character data (kernel-computable, unlike `String.toLower`). -/
def pyLower (s : String) : String := ⟨s.data.map Char.toLower⟩

/-- The sensitive set used at one node: baseline unioned with the lowercased
caller-supplied names (utils.py lines 116-128). -/
def sensSet (sf : List String) : List String :=
  SENSITIVE_BASE ++ sf.map pyLower

mutual

/-- Embedding of `clean_sensitive_data(data, sensitive_fields)`
(utils.py lines 97-138), returning the post-mutation value of `data`.
Recursion into the `changed` / `added` / `deleted` / `nested` values is
performed with the empty extra set, exactly as the Python recursive calls
pass no second argument.  A dict containing `nested` is never masked
(`elif "field" in data`). -/
def clean_sensitive_data (sf : List String) : PyData → PyData
  | .atom v => .atom v
  | .plist xs => .plist (cleanSDList xs)
  | .pdict kvs =>
    let kvs1 := cleanSDPairs kvs
    if hasKey kvs1 "nested" then .pdict kvs1
    else if hasKey kvs1 "field" then
      if optMem (getStrKey kvs1 "field") (sensSet sf)
          || optMem (getStrKey kvs1 "label") (sensSet sf) then
        .pdict (setKey (setKey kvs1 "old_value" maskP) "new_value" maskP)
      else .pdict kvs1
    else .pdict kvs1

/-- Recursion of `clean_sensitive_data` into a list: each element is cleaned
with the default (empty) extra sensitive set. -/
def cleanSDList : List PyData → List PyData
  | [] => []
  | x :: xs => clean_sensitive_data [] x :: cleanSDList xs

/-- Recursion of `clean_sensitive_data` into the values stored under the
`changed` / `added` / `deleted` / `nested` keys of a dict, each with the
default (empty) extra sensitive set; all other entries are untouched. -/
def cleanSDPairs : List (String × PyData) → List (String × PyData)
  | [] => []
  | (k, v) :: rest =>
    (if k == "changed" || k == "added" || k == "deleted" || k == "nested" then
      (k, clean_sensitive_data [] v)
    else (k, v)) :: cleanSDPairs rest

end

/-! ## `serializer_changed_data_diff` (utils.py lines 141-188)

The change records it builds are 4-key dicts `{field, label, old_value,
new_value}`; they are embedded as the structure `ChangeRecord`.  The inline
`clean_sensitive_data(changed_msg)` call (line 182) passes no extra
sensitive names, and on such a 4-key dict it reduces to masking both values
when the field or label string is in the baseline set; this specialisation
is `cleanRecord` (its agreement with `clean_sensitive_data` is proved below
as `cleanRecord_agrees`). -/

/-- One emitted change record (utils.py lines 176-181). -/
structure ChangeRecord where
  field : String
  label : String
  old_value : Val
  new_value : Val
deriving DecidableEq, Repr

/-- Action of `clean_sensitive_data(changed_msg)` (no caller names) on a
freshly built leaf record: mask both values iff the field or the label is
in the baseline sensitive set. -/
def cleanRecord (r : ChangeRecord) : ChangeRecord :=
  if SENSITIVE_BASE.contains r.field || SENSITIVE_BASE.contains r.label then
    { r with old_value := .vstr CLEANED_SUBSTITUTE,
             new_value := .vstr CLEANED_SUBSTITUTE }
  else r

/-- Field kind as dispatched by the `isinstance` chain of
`serializer_changed_data_diff` (lines 164-172): `ChoiceField` carries its
`choices` code→display mapping; `BooleanField`; anything else is plain. -/
inductive FieldKind where
  | plain : FieldKind
  | choice : List (Val × Val) → FieldKind
  | boolean : FieldKind
deriving DecidableEq, Repr

/-- One entry of the flattened `trans_dic`: the field's kind and its
(possibly `None` or empty) `label`. -/
structure FieldInfo where
  kind : FieldKind
  label : Option String
deriving DecidableEq, Repr

/-- Python `trans_dic[k]` lookup (raising `KeyError`, i.e. `none`, when
absent); `trans_dic` keys are strings. -/
def lookupField (t : List (String × FieldInfo)) (k : String) : Option FieldInfo :=
  (t.find? (fun e => e.1 == k)).map (·.2)

/-- Python `field.label or k`: the label unless it is `None` or falsy
(empty string), in which case the path itself. -/
def labelOr (fi : FieldInfo) (k : String) : String :=
  match fi.label with
  | some l => if l.isEmpty then k else l
  | none => k

/-- Python `dict.get` on a `Val`-keyed mapping, with Python `==` on keys. -/
def pyDictGet (m : List (Val × Val)) (k : Val) : Option Val :=
  (m.find? (fun e => e.1.pyEq k)).map (·.2)

/-- Choice normalization `v_mapping.get(v) or v` (lines 165-167): the mapped
display unless the code is unmapped or the display is falsy, else the raw
code. -/
def choiceNorm (m : List (Val × Val)) (v : Val) : Val :=
  match pyDictGet m v with
  | some w => if w.truthy then w else v
  | none => v

/-- Boolean normalization `"是" if v else "否"` (lines 170-172), applied to
the value's Python truthiness. -/
def boolNorm (v : Val) : Val :=
  if v.truthy then .vstr "是" else .vstr "否"

/-- Per-kind normalization of the old/new pair before comparison
(lines 164-172).  The `isinstance(v_old, Manager)` branch between the
choice and boolean branches cannot fire in this value universe (no lazy
collection references) and is therefore absent. -/
def normalizeVals (fi : FieldInfo) (vo vn : Val) : Val × Val :=
  match fi.kind with
  | .choice m => (choiceNorm m vo, choiceNorm m vn)
  | .boolean => (boolNorm vo, boolNorm vn)
  | .plain => (vo, vn)

/-- Body of one loop iteration of `serializer_changed_data_diff` after the
key-order check (lines 161-185): look the field up (`KeyError` → skip),
normalize, skip when the normalized values are `==`-equal or the normalized
old value is the `missing_value` sentinel, otherwise build the record and
clean it. -/
def processField (t : List (String × FieldInfo)) (k : String) (vo vn : Val) :
    Option ChangeRecord :=
  match lookupField t k with
  | none => none
  | some fi =>
    let p := normalizeVals fi vo vn
    if p.1.pyEq p.2 || p.1.pyEq .vmissing then none
    else some (cleanRecord ⟨k, labelOr fi k, p.1, p.2⟩)

/-- The `for ... in zip(old_data.items(), new_data.items())` loop
(lines 157-185): raise `ValueError` on a key mismatch at the current
position, else process the field and continue.  An exception discards all
records accumulated so far, which the `Except` short-circuit models. -/
def diffGo (t : List (String × FieldInfo)) :
    List ((String × Val) × (String × Val)) → Except String (List ChangeRecord)
  | [] => .ok []
  | ((ko, vo), (kn, vn)) :: rest =>
    if ko ≠ kn then .error "比较的数据key顺序错误"
    else
      match processField t kn vo vn with
      | some r =>
        match diffGo t rest with
        | .ok l => .ok (r :: l)
        | .error e => .error e
      | none => diffGo t rest

/-- Embedding of `serializer_changed_data_diff(old_data, new_data,
serializer, trans_dic)` (lines 141-188).  `ser` is the serializer argument,
abstracted to the flattened source-field table that line 152 would compute
from it (`none` embeds Python `None`, on which the recomputation raises
`AttributeError`); the recomputation triggers exactly when `trans_dic` is
falsy (empty).  The Python function returns `{"changed": l}` when the
record list `l` is non-empty and `{}` otherwise; since callers only test
that dict's truthiness and read `"changed"`, the embedding returns the
record list itself (empty ↔ `{}`). -/
def serializer_changed_data_diff (old_data new_data : List (String × Val))
    (ser : Option (List (String × FieldInfo))) (trans_dic : List (String × FieldInfo)) :
    Except String (List ChangeRecord) :=
  if trans_dic.isEmpty then
    match ser with
    | none => .error "AttributeError"
    | some sfields => diffGo sfields (old_data.zip new_data)
  else diffGo trans_dic (old_data.zip new_data)

/-! ## Child-collection reconciliation in `serializer_data_diff`
(utils.py lines 209-265)

A child is a flat attribute/value dict: a new child is a validated-data
dict (`flatten_dict(new_d, level=2)` is the identity on a dict of scalar
values), an old child is the attribute view of a model instance.  The
old-children map `{getattr(d, pk): d for d in old_list}` is a Python dict
built by insert-with-overwrite; a model instance always carries its
primary-key attribute, so `getattr` is totalised with the extraction
sentinel.  The materialization dance on the old side (lines 220-227:
`getattr` gives an always-truthy related manager, then `.valid()` or
`.all()`) is embedded by taking the already materialized old child list as
input. -/

/-- A child snapshot: a flat attribute→value dict. -/
abbrev Child := List (String × Val)

/-- Python `new_d.get(k)` on a child dict (string keys). -/
def childGet (d : Child) (k : String) : Option Val :=
  (d.find? (fun e => e.1 == k)).map (·.2)

/-- Python `dict.pop(k, None)`'s effect on the keys of a child dict. -/
def childEraseKey (d : Child) (k : String) : Child :=
  d.filter (fun e => e.1 ≠ k)

/-- Python `path.split(sep)` for the single-character separator `">"`
(`attribute_sep`, utils.py line 8), over the string's character data
(kernel-computable, unlike `String.splitOn`); `"".split(">") == [""]`. -/
def splitChar (c : Char) : List Char → List (List Char)
  | [] => [[]]
  | x :: xs =>
    match splitChar c xs with
    | [] => [[]]
    | y :: ys => if x = c then [] :: y :: ys else (x :: y) :: ys

/-- Embedding of `split_get(o, concat_attr)` (utils.py lines 15-22) against
a flat old-child object: a single attribute hop resolves in the attribute
dict (`missing_value` when absent); a multi-hop path drills into a scalar,
where the next `getattr` fails, hence the sentinel. -/
def split_get (o : Child) (path : String) : Val :=
  match (splitChar '>' path.data).map (fun l => String.mk l) with
  | [a] => ((o.find? (fun e => e.1 == a)).map (·.2)).getD .vmissing
  | _ => .vmissing

/-- `getattr(d, pk_name)` for building the old-children map: a model
instance always has its pk attribute; absence degenerates to the sentinel. -/
def getattrPk (d : Child) (pk_name : String) : Val :=
  ((d.find? (fun e => e.1 == pk_name)).map (·.2)).getD .vmissing

/-- The old-children map, keyed by primary-key value. -/
abbrev OldMap := List (Val × Child)

/-- Python dict insert with overwrite: replace the value at an `==`-equal
key (keeping the original key and position) or append. -/
def pyInsert (m : OldMap) (k : Val) (v : Child) : OldMap :=
  if m.any (fun e => e.1.pyEq k) then
    m.map (fun e => if e.1.pyEq k then (e.1, v) else e)
  else m ++ [(k, v)]

/-- `old_k_data_dict = {getattr(d, pk_name): d for d in old_k_data_list}`
(line 229). -/
def buildOldMap (pk_name : String) (olds : List Child) : OldMap :=
  olds.foldl (fun m d => pyInsert m (getattrPk d pk_name) d) []

/-- Python `old_k_data_dict.pop(primary_key, None)` (line 244): the popped
old child (if any) and the map afterwards. -/
def pyPop (m : OldMap) (k : Val) : Option Child × OldMap :=
  match m.find? (fun e => e.1.pyEq k) with
  | some e => (some e.2, m.eraseP (fun e => e.1.pyEq k))
  | none => (none, m)

/-- `primary_key.pk if isinstance(primary_key, Model)` (lines 241-242). -/
def resolvePk : Val → Val
  | .vobj n => .vint n
  | v => v

/-- One nested reconciliation entry: `{"added": []}`, `{"deleted": []}` or
`{"changed": [...]}` (lines 239, 260, 254-255 via the diff result). -/
inductive NestedEntry where
  | added : NestedEntry
  | deleted : NestedEntry
  | changed : List ChangeRecord → NestedEntry
deriving DecidableEq, Repr

/-- One iteration of the `for new_d in new_k_data_list` loop
(lines 232-255) as a step on the state (old-children map, accumulated
entry list): a child with an absent or falsy primary key is appended as
`{"added": []}` without touching the map; otherwise the key (resolved
through `.pk` for model references) is popped from the map and, when an
old child was found, the leaf diff of the two message dicts is appended as
`{"changed": [...]}` when non-empty (a popped miss appends nothing — the
loop has no branch for it). -/
def reconcile_step (pk_name : String) (t : List (String × FieldInfo))
    (st : OldMap × List NestedEntry) (new_d : Child) :
    Except String (OldMap × List NestedEntry) :=
  let m := st.1
  let acc := st.2
  let new_msg := childEraseKey new_d pk_name
  match childGet new_d pk_name with
  | none => .ok (m, acc ++ [.added])
  | some pkv =>
    if !pkv.truthy then .ok (m, acc ++ [.added])
    else
      match pyPop m (resolvePk pkv) with
      | (some old_d, m') =>
        let old_msg := new_msg.map (fun e => (e.1, split_get old_d e.1))
        match serializer_changed_data_diff old_msg new_msg none t with
        | .error e => .error e
        | .ok recs =>
          if recs.isEmpty then .ok (m', acc) else .ok (m', acc ++ [.changed recs])
      | (none, m') => .ok (m', acc)

/-- The `for new_d in new_k_data_list` loop (lines 232-255), threading the
old-children map and the accumulated entry list through the steps; a raised
exception aborts the whole loop. -/
def reconcile_loop (pk_name : String) (t : List (String × FieldInfo)) :
    List Child → OldMap → List NestedEntry → Except String (OldMap × List NestedEntry)
  | [], m, acc => .ok (m, acc)
  | d :: rest, m, acc =>
    match reconcile_step pk_name t (m, acc) d with
    | .error e => .error e
    | .ok st => reconcile_loop pk_name t rest st.1 st.2

/-- Reconciliation of one repeatable field (lines 216-260):
`new_opt` is `serializer.validated_data.get(k)`; a falsy value (`None` or
the empty list) skips the field entirely (`continue`, line 217-218), so it
contributes no entries at all.  Otherwise the new children are processed in
order and every entry still left in the old-children map afterwards appends
one `{"deleted": []}` (lines 258-260). -/
def reconcile_children (pk_name : String) (t : List (String × FieldInfo))
    (new_opt : Option (List Child)) (olds : List Child) :
    Except String (List NestedEntry) :=
  match new_opt with
  | none => .ok []
  | some news =>
    if news.isEmpty then .ok []
    else
      match reconcile_loop pk_name t news (buildOldMap pk_name olds) [] with
      | .error e => .error e
      | .ok (mf, acc) => .ok (acc ++ mf.map (fun _ => .deleted))

/-- The truthy, `.pk`-resolved primary-key values of the new children, in
order: exactly the keys the loop pops from the old-children map. -/
def newPks (pk_name : String) (news : List Child) : List Val :=
  news.filterMap (fun d =>
    match childGet d pk_name with
    | some v => if v.truthy then some (resolvePk v) else none
    | none => none)

/-- Test for a `{"deleted": []}` entry. -/
def isDeleted : NestedEntry → Bool
  | .deleted => true
  | _ => false

/-! ## Exclusion filter (utils.py lines 347-390) and its retrieval caller
(mixins.py `OperationLogMixin.operationlogs`, lines 191-198)

A stored `changed_message` is a list of diff documents; each document may
carry a `changed` list whose items are leaf change records or nested
repeatable-field diffs `{"field", "label", "nested": [...]}`.  Both Python
functions mutate the stored structure in place and `return` nothing; the
embedding gives each function's effect (the post-call value of its
argument) and, where the caller uses it, its `None` return value. -/

/-- One item of a document's `changed` list. -/
inductive DiffItem where
  | leaf : ChangeRecord → DiffItem
  | nestedF : String → String → List NestedEntry → DiffItem
deriving DecidableEq, Repr

/-- One stored diff document: its optional `changed` list
(`d.get("changed")` is `None` when the key is absent). -/
structure LogDoc where
  changed : Option (List DiffItem)
deriving DecidableEq, Repr

/-- The removal test of `_clean_excluded_fields` (lines 350-353):
`data[i].get("field") in excluded or data[i].get("label") in excluded`,
on a `changed`-list item (both item shapes carry field and label). -/
def excMatchItem (exc : List String) : DiffItem → Bool
  | .leaf r => exc.contains r.field || exc.contains r.label
  | .nestedF f l _ => exc.contains f || exc.contains l

/-- Effect of `_clean_excluded_fields(data, excluded_fields)`
(lines 347-354) on a top-level `changed` list: the reversed-index `pop`
loop removes exactly the matching items, preserving the order of the rest. -/
def cleanExcludedItems (data : List DiffItem) (exc : List String) : List DiffItem :=
  data.filter (fun d => !excMatchItem exc d)

/-- Effect of `_clean_excluded_fields` on a nested per-child `changed` list
(whose items are leaf records). -/
def cleanExcludedRecords (data : List ChangeRecord) (exc : List String) :
    List ChangeRecord :=
  data.filter (fun r => !(exc.contains r.field || exc.contains r.label))

/-- The level-2 lookup of lines 371-379: the sub-exclusion list for an item
whose `field` is a key of the map, `elif` whose `label` is. -/
def lookupL2 (m : List (String × List String)) (f l : String) : Option (List String) :=
  match m.find? (fun e => e.1 == f) with
  | some e => some e.2
  | none =>
    match m.find? (fun e => e.1 == l) with
    | some e => some e.2
    | none => none

/-- Per-nested-entry cleaning of lines 384-389: only a truthy (non-empty)
`changed` list is filtered. -/
def cleanNestedEntry (exc : List String) : NestedEntry → NestedEntry
  | .changed rs => if rs.isEmpty then .changed rs else .changed (cleanExcludedRecords rs exc)
  | e => e

/-- Level-2 cleaning of one surviving `changed`-list item (lines 370-389):
a leaf is untouched; a nested diff whose field or label keys a truthy
sub-exclusion list and whose `nested` list is truthy has each nested
entry's `changed` list cleaned. -/
def applyL2 (m : List (String × List String)) : DiffItem → DiffItem
  | .leaf r => .leaf r
  | .nestedF f l ns =>
    match lookupL2 m f l with
    | some exc =>
      if exc.isEmpty then .nestedF f l ns
      else if ns.isEmpty then .nestedF f l ns
      else .nestedF f l (ns.map (cleanNestedEntry exc))
    | none => .nestedF f l ns

/-- Cleaning of one stored document inside the `for d in data` loop
(lines 362-389): nothing when the document has no truthy `changed` list;
otherwise level-1 filtering mutates the list first and level-2 cleaning
(when the map is truthy) then runs over the already-filtered items. -/
def docClean (l1 : List String) (l2 : List (String × List String)) (d : LogDoc) :
    LogDoc :=
  match d.changed with
  | none => d
  | some ch =>
    if ch.isEmpty then d
    else
      let ch1 := cleanExcludedItems ch l1
      if l2.isEmpty then ⟨some ch1⟩
      else ⟨some (ch1.map (applyL2 l2))⟩

/-- Effect of `clean_excluded_fields(data, level_1, level_2_map)`
(lines 357-390) on the stored list: nothing at all when the level-1 list is
falsy (even a non-empty level-2 map is then ignored), else each document is
cleaned in place.  The Python function body has no `return` statement. -/
def clean_excluded_fields (data : List LogDoc) (l1 : List String)
    (l2 : List (String × List String)) : List LogDoc :=
  if l1.isEmpty then data else data.map (docClean l1 l2)

/-- A leaf change record encoded as the generic data tree
`clean_sensitive_data` walks: the 4-key dict
`{"field": f, "label": l, "old_value": po, "new_value": pn}`. -/
def encRecord (f l : String) (po pn : PyData) : PyData :=
  .pdict [("field", .atom (.vstr f)), ("label", .atom (.vstr l)),
          ("old_value", po), ("new_value", pn)]

/-- The exclusion step of `OperationLogMixin.operationlogs`
(mixins.py lines 191-198): `q.changed_message =
clean_excluded_fields(q.changed_message, ...)`.  The pair is (the value
assigned to `changed_message`, i.e. the call's `None` return value; the
post-call state of the stored list object the call mutated). -/
def operationlogs_apply_exclusions (stored : List LogDoc) (l1 : List String)
    (l2 : List (String × List String)) : Option (List LogDoc) × List LogDoc :=
  (none, clean_excluded_fields stored l1 l2)

/-! ## Theorems -/

/-- C6: for every child-collection reconciliation, a new-snapshot child
that lacks a primary-key value is classified as `Added{}` unconditionally —
no content comparison against any old child occurs (the old-children map
and the accumulated entries are arbitrary and untouched), even when the
child's content equals some old child's content. -/
theorem keyless_new_child_always_added (pk_name : String)
    (t : List (String × FieldInfo)) (m : OldMap) (acc : List NestedEntry)
    (new_d : Child) (h : childGet new_d pk_name = none) :
    reconcile_step pk_name t (m, acc) new_d = .ok (m, acc ++ [.added]) := by
  simp [reconcile_step, h]

/-- Witness for C6: a concrete key-less new child whose content equals the
only old child's content is still reported `Added{}` with the old map left
intact. -/
theorem keyless_new_child_always_added_witness :
    reconcile_step "id" [("qty", ⟨.plain, none⟩)]
      ([(.vint 1, [("qty", .vint 5)])], []) [("qty", .vint 5)]
      = .ok ([(.vint 1, [("qty", .vint 5)])], [] ++ [.added]) :=
  keyless_new_child_always_added "id" [("qty", ⟨.plain, none⟩)]
    [(.vint 1, [("qty", .vint 5)])] [] [("qty", .vint 5)] rfl

/-- C10: a new-snapshot child whose primary-key value is present but falsy
(`0`, `""`, `False`, `None`) is treated as lacking a primary key: it is
classified `Added{}` without consulting the old-children map, even when an
old child keyed by that exact falsy value exists there. -/
theorem falsy_pk_new_child_added_without_lookup (pk_name : String)
    (t : List (String × FieldInfo)) (m : OldMap) (acc : List NestedEntry)
    (new_d : Child) (v : Val) (h : childGet new_d pk_name = some v)
    (hv : v.truthy = false) :
    reconcile_step pk_name t (m, acc) new_d = .ok (m, acc ++ [.added]) := by
  simp [reconcile_step, h, hv]

/-- Witness for C10: primary key `0` on the new child, with an old child
keyed by `0` present in the map: still `Added{}`, map untouched. -/
theorem falsy_pk_new_child_added_without_lookup_witness :
    reconcile_step "id" [("qty", ⟨.plain, none⟩)]
      ([(.vint 0, [("id", .vint 0), ("qty", .vint 5)])], [])
      [("id", .vint 0), ("qty", .vint 5)]
      = .ok ([(.vint 0, [("id", .vint 0), ("qty", .vint 5)])], [] ++ [.added]) :=
  falsy_pk_new_child_added_without_lookup "id" [("qty", ⟨.plain, none⟩)]
    [(.vint 0, [("id", .vint 0), ("qty", .vint 5)])] []
    [("id", .vint 0), ("qty", .vint 5)] (.vint 0) rfl rfl

/-- C7 (amended): a Boolean-kind field transitioning `false → true` emits a
record whose values are the cleaned display pair: `"否"`/`"是"` ordinarily,
but both replaced by the mask token when the field path or label is in the
baseline sensitive set (the inline `clean_sensitive_data` call); never the
raw booleans. -/
theorem boolean_display_pair_unless_sensitive (t : List (String × FieldInfo))
    (k : String) (fi : FieldInfo) (h : lookupField t k = some fi)
    (hk : fi.kind = .boolean) :
    processField t k (.vbool false) (.vbool true)
      = some (cleanRecord ⟨k, labelOr fi k, .vstr "否", .vstr "是"⟩) := by
  simp [processField, h, normalizeVals, hk, boolNorm, Val.truthy, Val.pyEq, Val.pyKey]

/-- Witness for C7: a concrete non-sensitive boolean field yields the
`"否"`/`"是"` pair. -/
theorem boolean_display_pair_unless_sensitive_witness :
    processField [("active", ⟨.boolean, none⟩)] "active" (.vbool false) (.vbool true)
      = some (cleanRecord ⟨"active", "active", .vstr "否", .vstr "是"⟩) :=
  boolean_display_pair_unless_sensitive [("active", ⟨.boolean, none⟩)] "active"
    ⟨.boolean, none⟩ rfl rfl

/-- C7 counterexample: a Boolean field named `token` transitioning
`false → true` does NOT carry the display pair — the inline redaction masks
both values — so the claim as stated (display pair for every Boolean-kind
field) is false. -/
theorem boolean_sensitive_field_masked_counterexample :
    serializer_changed_data_diff [("token", .vbool false)] [("token", .vbool true)]
        none [("token", ⟨.boolean, none⟩)]
      = .ok [⟨"token", "token", .vstr "******", .vstr "******"⟩]
    ∧ (Val.vstr "******" ≠ .vstr "否") := by
  exact ⟨rfl, by decide⟩

/-- C8 (amended): for a Choice-kind field, old and new codes are translated
through the code→display mapping before comparison (two codes with
`==`-equal translations emit nothing), and a code with no entry in the
mapping is kept as-is in the emitted record — unless the field path or
label is in the baseline sensitive set, in which case the emitted values
are the mask token (the `cleanRecord` wrapping). -/
theorem choice_translation_and_fallback :
    (∀ (t : List (String × FieldInfo)) (k : String) (fi : FieldInfo)
        (m : List (Val × Val)) (vo vn : Val),
      lookupField t k = some fi → fi.kind = .choice m →
      (choiceNorm m vo).pyEq (choiceNorm m vn) = true →
      processField t k vo vn = none)
    ∧ (∀ (t : List (String × FieldInfo)) (k : String) (fi : FieldInfo)
        (m : List (Val × Val)) (vo vn : Val),
      lookupField t k = some fi → fi.kind = .choice m →
      pyDictGet m vo = none → pyDictGet m vn = none →
      vo.pyEq vn = false → vo.pyEq .vmissing = false →
      processField t k vo vn = some (cleanRecord ⟨k, labelOr fi k, vo, vn⟩)) := by
  constructor
  · intro t k fi m vo vn h hk heq
    simp [processField, h, normalizeVals, hk, heq]
  · intro t k fi m vo vn h hk ho hn hne hnm
    simp [processField, h, normalizeVals, hk, choiceNorm, ho, hn, hne, hnm]

/-- Witness for C8: a concrete unmapped code on a non-sensitive choice
field is kept as-is in the emitted record. -/
theorem choice_translation_and_fallback_witness :
    processField [("role", ⟨.choice [(.vint 1, .vstr "admin")], none⟩)] "role"
        (.vint 2) (.vint 3)
      = some (cleanRecord ⟨"role", "role", .vint 2, .vint 3⟩) :=
  choice_translation_and_fallback.2 [("role", ⟨.choice [(.vint 1, .vstr "admin")], none⟩)]
    "role" ⟨.choice [(.vint 1, .vstr "admin")], none⟩ [(.vint 1, .vstr "admin")]
    (.vint 2) (.vint 3) rfl rfl rfl rfl rfl rfl

/-- C8 counterexample: a Choice field named `token` with an empty mapping
and unmapped old code `"x"` emits the mask token, not the raw code kept
as-is, so the claim as stated is false. -/
theorem choice_sensitive_field_masked_counterexample :
    serializer_changed_data_diff [("token", .vstr "x")] [("token", .vstr "y")]
        none [("token", ⟨.choice [], none⟩)]
      = .ok [⟨"token", "token", .vstr "******", .vstr "******"⟩]
    ∧ (Val.vstr "******" ≠ .vstr "x") := by
  exact ⟨rfl, by decide⟩

/-- C1 (amended): a record is emitted only if the normalized old value
differs (Python `==`) from the normalized new value and the normalized old
value is not the `missing_value` sentinel.  For Plain and Choice kinds
(whose mappings never contain the sentinel as a code) normalization
preserves the sentinel, so a field whose old value is MISSING is never
reported; for the Boolean kind the truthy sentinel is normalized to the
yes-display before the check, so suppression fails there (see the
counterexample). -/
theorem changed_record_emission_condition :
    (∀ (t : List (String × FieldInfo)) (k : String) (vo vn : Val) (r : ChangeRecord),
      processField t k vo vn = some r →
      ∃ fi, lookupField t k = some fi ∧
        (normalizeVals fi vo vn).1.pyEq (normalizeVals fi vo vn).2 = false ∧
        (normalizeVals fi vo vn).1.pyEq .vmissing = false)
    ∧ (∀ (t : List (String × FieldInfo)) (k : String) (fi : FieldInfo) (vn : Val),
      lookupField t k = some fi →
      (fi.kind = .plain
        ∨ ∃ m, fi.kind = .choice m ∧ ∀ e ∈ m, e.1.pyEq .vmissing = false) →
      processField t k .vmissing vn = none) := by
  constructor
  · intro t k vo vn r h
    unfold processField at h
    cases h1 : lookupField t k with
    | none => rw [h1] at h; exact absurd h (by simp)
    | some fi =>
      rw [h1] at h
      dsimp only at h
      split at h
      · exact absurd h (by simp)
      · rename_i hc
        rw [Bool.or_eq_true, not_or] at hc
        exact ⟨fi, rfl, Bool.not_eq_true _ ▸ hc.1, Bool.not_eq_true _ ▸ hc.2⟩
  · intro t k fi vn h hk
    rcases hk with hp | ⟨m, hm, hsent⟩
    · simp [processField, h, normalizeVals, hp, Val.pyEq, Val.pyKey]
    · have hfind : List.find? (fun e => e.1.pyEq Val.vmissing) m = none :=
        List.find?_eq_none.mpr (fun e he => by simp [hsent e he])
      have hget : pyDictGet m .vmissing = none := by
        simp [pyDictGet, hfind]
      simp [processField, h, normalizeVals, hm, choiceNorm, hget, Val.pyEq, Val.pyKey]

/-- Witness for C1: a Plain-kind field whose old value is the sentinel is
not reported even though the new value differs. -/
theorem changed_record_emission_condition_witness :
    processField [("x", ⟨.plain, none⟩)] "x" .vmissing (.vint 1) = none :=
  changed_record_emission_condition.2 [("x", ⟨.plain, none⟩)] "x"
    ⟨.plain, none⟩ (.vint 1) rfl (Or.inl rfl)

/-- C1 counterexample: a Boolean field whose old value is the MISSING
sentinel and whose new value is `False` IS reported as changed (the truthy
sentinel normalizes to the yes-display before the sentinel check), so the
claim's universal suppression over every field kind is false. -/
theorem boolean_missing_old_reported_counterexample :
    serializer_changed_data_diff [("active", .vmissing)] [("active", .vbool false)]
        none [("active", ⟨.boolean, none⟩)]
      = .ok [⟨"active", "active", .vstr "是", .vstr "否"⟩]
    ∧ ([(⟨"active", "active", .vstr "是", .vstr "否"⟩ : ChangeRecord)] ≠ []) := by
  exact ⟨rfl, by decide⟩

/-- Helper: when every zipped pair agrees on its key, the lockstep loop
never raises. -/
theorem diffGo_ok_of_aligned (t : List (String × FieldInfo)) :
    ∀ ps : List ((String × Val) × (String × Val)),
      (∀ p ∈ ps, p.1.1 = p.2.1) → ∃ l, diffGo t ps = .ok l
  | [], _ => ⟨[], rfl⟩
  | ((ko, vo), (kn, vn)) :: rest, h => by
    have hk : ko = kn := h ((ko, vo), (kn, vn)) (by simp)
    subst hk
    obtain ⟨l, hl⟩ := diffGo_ok_of_aligned t rest (fun p hp => h p (by simp [hp]))
    unfold diffGo
    rw [if_neg (by simp)]
    cases hp : processField t ko vo vn with
    | some r => exact ⟨r :: l, by rw [hl]⟩
    | none => exact ⟨l, hl⟩

/-- Helper: a key mismatch anywhere in the zipped list makes the lockstep
loop raise `ValueError`. -/
theorem diffGo_error_of_mismatch (t : List (String × FieldInfo)) :
    ∀ ps : List ((String × Val) × (String × Val)),
      (∃ p ∈ ps, p.1.1 ≠ p.2.1) → diffGo t ps = .error "比较的数据key顺序错误"
  | ((ko, vo), (kn, vn)) :: rest, h => by
    by_cases hk : ko = kn
    · subst hk
      have hrest : ∃ p ∈ rest, p.1.1 ≠ p.2.1 := by
        rcases h with ⟨p, hp, hne⟩
        rcases List.mem_cons.mp hp with rfl | hmem
        · exact absurd rfl hne
        · exact ⟨p, hmem, hne⟩
      have he := diffGo_error_of_mismatch t rest hrest
      unfold diffGo
      rw [if_neg (by simp)]
      cases hp : processField t ko vo vn with
      | some r => rw [he]
      | none => exact he
    · unfold diffGo
      rw [if_pos hk]

/-- C5 (amended): with a truthy `trans_dic`, the leaf diff raises
`ValueError` exactly when some position within the common length of the two
key sequences (the range `zip` pairs up) carries differing keys; keys
beyond the shorter map's length are silently dropped by `zip` and enforce
nothing (see the counterexample). -/
theorem key_mismatch_error_within_common_length (old_data new_data : List (String × Val))
    (ser : Option (List (String × FieldInfo))) (t : List (String × FieldInfo))
    (ht : t.isEmpty = false) :
    serializer_changed_data_diff old_data new_data ser t = .error "比较的数据key顺序错误"
      ↔ ∃ p ∈ old_data.zip new_data, p.1.1 ≠ p.2.1 := by
  unfold serializer_changed_data_diff
  rw [ht]
  simp only [Bool.false_eq_true, if_false]
  constructor
  · intro h
    by_contra hno
    push_neg at hno
    obtain ⟨l, hl⟩ := diffGo_ok_of_aligned t (old_data.zip new_data) hno
    rw [hl] at h
    exact absurd h (by simp)
  · exact diffGo_error_of_mismatch t (old_data.zip new_data)

/-- Witness for C5: a concrete in-range key mismatch raises the error. -/
theorem key_mismatch_error_within_common_length_witness :
    serializer_changed_data_diff [("a", .vint 1)] [("b", .vint 1)]
        none [("a", ⟨.plain, none⟩)] = .error "比较的数据key顺序错误" :=
  (key_mismatch_error_within_common_length [("a", .vint 1)] [("b", .vint 1)]
      none [("a", ⟨.plain, none⟩)] rfl).mpr
    ⟨(("a", .vint 1), ("b", .vint 1)), by decide, by decide⟩

/-- C5 counterexample: the new map has a surplus key `b` the old map lacks
— the key sequences differ in content — yet no exception is raised and the
surplus key is silently ignored, so the claim that any difference between
the key sequences is a fatal error is false. -/
theorem surplus_keys_silently_ignored_counterexample :
    serializer_changed_data_diff [("a", .vint 1)] [("a", .vint 1), ("b", .vint 2)]
        none [("a", ⟨.plain, none⟩)] = .ok []
    ∧ (["a"] ≠ ["a", "b"]) := by
  exact ⟨rfl, by decide⟩

/-- Helper: filtering twice with the same predicate filters once. -/
theorem filter_idem {α : Type} (p : α → Bool) (l : List α) :
    (l.filter p).filter p = l.filter p := by
  induction l with
  | nil => rfl
  | cons a l ih =>
    cases hpa : p a with
    | true => simp [List.filter, hpa, ih]
    | false => simp [List.filter, hpa, ih]

/-- Helper: a filter commutes past a map that does not change the
predicate's verdict. -/
theorem filter_map_comm {α : Type} (p : α → Bool) (g : α → α) (l : List α)
    (h : ∀ x, p (g x) = p x) : (l.map g).filter p = (l.filter p).map g := by
  induction l with
  | nil => rfl
  | cons a l ih =>
    cases hpa : p a with
    | true => simp [List.filter, h, hpa, ih]
    | false => simp [List.filter, h, hpa, ih]

/-- Helper: level-2 cleaning never changes an item's field or label, hence
not its level-1 exclusion verdict. -/
theorem excMatch_applyL2 (exc : List String) (m : List (String × List String))
    (it : DiffItem) : excMatchItem exc (applyL2 m it) = excMatchItem exc it := by
  cases it with
  | leaf r => rfl
  | nestedF f l ns =>
    simp only [applyL2]
    cases h : lookupL2 m f l with
    | none => rfl
    | some e =>
      simp only [h]
      split
      · rfl
      · split
        · rfl
        · rfl

/-- Helper: per-entry nested cleaning is idempotent. -/
theorem cleanNestedEntry_idem (exc : List String) (e : NestedEntry) :
    cleanNestedEntry exc (cleanNestedEntry exc e) = cleanNestedEntry exc e := by
  cases e with
  | added => rfl
  | deleted => rfl
  | changed rs =>
    simp only [cleanNestedEntry]
    cases h : rs.isEmpty with
    | true => simp [cleanNestedEntry, h]
    | false =>
      simp only [Bool.false_eq_true, if_false, cleanNestedEntry]
      cases h2 : (cleanExcludedRecords rs exc).isEmpty with
      | true => simp
      | false => simp [cleanExcludedRecords, filter_idem]

/-- Helper: level-2 cleaning of one item is idempotent. -/
theorem applyL2_idem (m : List (String × List String)) (it : DiffItem) :
    applyL2 m (applyL2 m it) = applyL2 m it := by
  cases it with
  | leaf r => rfl
  | nestedF f l ns =>
    simp only [applyL2]
    cases h : lookupL2 m f l with
    | none => simp [applyL2, h]
    | some e =>
      cases he : e.isEmpty with
      | true => simp only [he, if_true, applyL2, h]
      | false =>
        simp only [he, Bool.false_eq_true, if_false]
        cases hn : ns.isEmpty with
        | true => simp only [hn, if_true, applyL2, h, he, Bool.false_eq_true, if_false]
        | false =>
          simp only [hn, Bool.false_eq_true, if_false, applyL2, h, he]
          have hn2 : (ns.map (cleanNestedEntry e)).isEmpty = false := by
            cases ns with
            | nil => exact absurd hn (by simp)
            | cons a l => rfl
          simp only [hn2, Bool.false_eq_true, if_false, List.map_map]
          have : ns.map (cleanNestedEntry e ∘ cleanNestedEntry e)
              = ns.map (cleanNestedEntry e) :=
            List.map_congr_left (fun a _ => cleanNestedEntry_idem e a)
          rw [this]

/-- Helper: cleaning one stored document is idempotent. -/
theorem docClean_idem (l1 : List String) (l2 : List (String × List String))
    (d : LogDoc) : docClean l1 l2 (docClean l1 l2 d) = docClean l1 l2 d := by
  obtain ⟨ch?⟩ := d
  cases ch? with
  | none => rfl
  | some ch =>
    simp only [docClean]
    cases h0 : ch.isEmpty with
    | true => simp [docClean, h0]
    | false =>
      simp only [Bool.false_eq_true, if_false]
      cases hl2 : l2.isEmpty with
      | true =>
        simp only [if_true, docClean]
        cases h1 : (cleanExcludedItems ch l1).isEmpty with
        | true => simp
        | false =>
          simp only [Bool.false_eq_true, if_false, hl2, if_true,
            cleanExcludedItems, filter_idem]
      | false =>
        simp only [Bool.false_eq_true, if_false, docClean]
        cases h1 : ((cleanExcludedItems ch l1).map (applyL2 l2)).isEmpty with
        | true => simp
        | false =>
          simp only [Bool.false_eq_true, if_false, hl2]
          have hcomm : cleanExcludedItems ((cleanExcludedItems ch l1).map (applyL2 l2)) l1
              = (cleanExcludedItems ch l1).map (applyL2 l2) := by
            unfold cleanExcludedItems
            rw [filter_map_comm _ _ _ (fun x => by rw [excMatch_applyL2])]
            rw [filter_idem]
          rw [hcomm, List.map_map]
          have : (cleanExcludedItems ch l1).map (applyL2 l2 ∘ applyL2 l2)
              = (cleanExcludedItems ch l1).map (applyL2 l2) :=
            List.map_congr_left (fun a _ => applyL2_idem l2 a)
          rw [this]

/-- C9: exclusion filtering is idempotent — applying the same formatted
exclusion spec to the result of applying it removes nothing further. -/
theorem exclusion_filter_idempotent (data : List LogDoc) (l1 : List String)
    (l2 : List (String × List String)) :
    clean_excluded_fields (clean_excluded_fields data l1 l2) l1 l2
      = clean_excluded_fields data l1 l2 := by
  unfold clean_excluded_fields
  by_cases h : l1.isEmpty = true
  · simp [h]
  · simp only [h, Bool.false_eq_true, if_false, List.map_map]
    exact List.map_congr_left (fun d _ => docClean_idem l1 l2 d)

/-- C4 (code bug evaluation): at a stored document with one excludable leaf
and the exclusion spec `["a"]`, the retrieval step of `operationlogs`
assigns `None` to `changed_message` (the `clean_excluded_fields` body has
no `return`), while the call mutates the stored original in place (its
post-call state differs from the input), contradicting the spec's
derived-view contract on both counts. -/
theorem operationlogs_exclusion_returns_none_and_mutates :
    operationlogs_apply_exclusions
        [⟨some [.leaf ⟨"a", "a", .vint 1, .vint 2⟩]⟩] ["a"] []
      = (none, [⟨some []⟩])
    ∧ ([(⟨some []⟩ : LogDoc)] ≠ [⟨some [.leaf ⟨"a", "a", .vint 1, .vint 2⟩]⟩]) := by
  exact ⟨rfl, by decide⟩

/-- Helper: the list recursion of `clean_sensitive_data` maps the
no-extra-names cleaning over the elements. -/
theorem cleanSDList_eq_map (xs : List PyData) :
    cleanSDList xs = xs.map (clean_sensitive_data []) := by
  induction xs with
  | nil => simp [cleanSDList]
  | cons x xs ih => simp [cleanSDList, ih]

/-- C3 (amended): a leaf record's values are masked iff its field or label
string is exactly (case-sensitively) a member of the baseline set unioned
with the lowercased caller-supplied names — and the caller-supplied names
apply only at the node the caller passes directly: the recursion into a
`changed` (likewise `added`/`deleted`/`nested`) sub-tree is invoked with
the empty extra set, so below the top level only the baseline set masks. -/
theorem redactor_masking_characterisation :
    (∀ (sf : List String) (f l : String) (po pn : PyData),
      clean_sensitive_data sf (encRecord f l po pn)
        = if (sensSet sf).contains f || (sensSet sf).contains l then
            encRecord f l maskP maskP
          else encRecord f l po pn)
    ∧ (∀ (sf : List String) (xs : List PyData),
      clean_sensitive_data sf (.pdict [("changed", .plist xs)])
        = .pdict [("changed", .plist (xs.map (clean_sensitive_data [])))]) := by
  constructor
  · intro sf f l po pn
    simp only [clean_sensitive_data, encRecord, cleanSDPairs, hasKey, getStrKey,
      optMem, setKey, List.any, List.find?]
    split
    · simp_all [sensSet]
    · simp_all [sensSet]
  · intro sf xs
    simp [clean_sensitive_data, cleanSDPairs, hasKey, getStrKey, cleanSDList_eq_map]

/-- C3 counterexample: with caller-supplied sensitive name `pin`, a leaf
record with field and label `pin` nested one level down inside a `changed`
list is NOT masked (the recursion drops the caller-supplied names), while
the very same record passed directly IS masked — so the claim that
caller-supplied names apply at every depth of the recursion is false. -/
theorem caller_names_not_recursive_counterexample :
    clean_sensitive_data ["pin"]
        (.pdict [("changed",
          .plist [encRecord "pin" "pin" (.atom (.vstr "a")) (.atom (.vstr "b"))])])
      = .pdict [("changed",
          .plist [encRecord "pin" "pin" (.atom (.vstr "a")) (.atom (.vstr "b"))])]
    ∧ clean_sensitive_data ["pin"]
        (encRecord "pin" "pin" (.atom (.vstr "a")) (.atom (.vstr "b")))
      = encRecord "pin" "pin" maskP maskP := by
  have hp : pyLower "pin" = "pin" := rfl
  constructor
  · simp [clean_sensitive_data, cleanSDList, cleanSDPairs, hasKey, getStrKey, optMem,
      sensSet, SENSITIVE_BASE, setKey, encRecord, hp]
  · simp [clean_sensitive_data, cleanSDList, cleanSDPairs, hasKey, getStrKey, optMem,
      sensSet, SENSITIVE_BASE, setKey, encRecord, hp, maskP]


/-- Helper: Python `==` holds iff the canonical keys agree. -/
theorem pyEq_true_iff (a b : Val) : a.pyEq b = true ↔ a.pyKey = b.pyKey := by
  simp [Val.pyEq]

/-- Helper: Python `==` fails iff the canonical keys differ. -/
theorem pyEq_false_iff (a b : Val) : a.pyEq b = false ↔ a.pyKey ≠ b.pyKey := by
  simp [Val.pyEq]

/-- Helper: insert-with-overwrite preserves pairwise-distinct keys. -/
theorem dk_pyInsert (m : OldMap) (k : Val) (v : Child)
    (h : m.Pairwise (fun a b => a.1.pyEq b.1 = false)) :
    (pyInsert m k v).Pairwise (fun a b => a.1.pyEq b.1 = false) := by
  unfold pyInsert
  by_cases ha : m.any (fun e => e.1.pyEq k) = true
  · rw [if_pos ha, List.pairwise_map]
    refine h.imp ?_
    intro a b hab
    have hga : ∀ e : Val × Child, (if e.1.pyEq k then (e.1, v) else e).1 = e.1 := by
      intro e; split <;> rfl
    rw [hga, hga]
    exact hab
  · rw [if_neg ha, List.pairwise_append]
    refine ⟨h, List.pairwise_singleton _ _, ?_⟩
    intro a hma b hb
    rw [List.mem_singleton] at hb
    subst hb
    have hfa : m.any (fun e => e.1.pyEq k) = false := by
      cases hh : m.any (fun e => e.1.pyEq k)
      · rfl
      · exact absurd hh ha
    have h5 := List.any_eq_false.mp hfa a hma
    simpa using h5

/-- Helper: the old-children map has pairwise `==`-distinct keys. -/
theorem dk_buildOldMap (pk : String) (olds : List Child) :
    (buildOldMap pk olds).Pairwise (fun a b => a.1.pyEq b.1 = false) := by
  unfold buildOldMap
  suffices h : ∀ (l : List Child) (m : OldMap),
      m.Pairwise (fun a b => a.1.pyEq b.1 = false) →
      (l.foldl (fun m d => pyInsert m (getattrPk d pk) d) m).Pairwise
        (fun a b => a.1.pyEq b.1 = false) by
    exact h olds [] (by simp)
  intro l
  induction l with
  | nil => intro m hm; simpa using hm
  | cons d rest ih =>
    intro m hm
    exact ih _ (dk_pyInsert _ _ _ hm)

/-- Helper: under distinct keys, erasing the first `==`-match is filtering
out every `==`-match. -/
theorem eraseP_eq_filter_of_dk (k : Val) :
    ∀ m : OldMap, m.Pairwise (fun a b => a.1.pyEq b.1 = false) →
      m.eraseP (fun e => e.1.pyEq k) = m.filter (fun e => !(e.1.pyEq k))
  | [], _ => rfl
  | a :: tl, h => by
    rcases List.pairwise_cons.mp h with ⟨ha, ht⟩
    cases hak : a.1.pyEq k with
    | false =>
      rw [List.eraseP_cons_of_neg (by simp [hak]), List.filter_cons_of_pos (by simp [hak])]
      rw [eraseP_eq_filter_of_dk k tl ht]
    | true =>
      rw [List.eraseP_cons_of_pos (by simp [hak]), List.filter_cons_of_neg (by simp [hak])]
      symm
      rw [List.filter_eq_self]
      intro b hb
      have h2 : a.1.pyKey = k.pyKey := (pyEq_true_iff _ _).mp hak
      have h3 : a.1.pyKey ≠ b.1.pyKey := (pyEq_false_iff _ _).mp (ha b hb)
      have h4 : b.1.pyEq k = false :=
        (pyEq_false_iff _ _).mpr (fun hbk => h3 (by rw [h2, hbk]))
      simp [h4]

/-- Helper: under distinct keys, the map left by `dict.pop(k, None)` is the
map without the `==`-matches of `k` (unchanged when `k` is absent). -/
theorem pyPop_snd (m : OldMap) (k : Val)
    (h : m.Pairwise (fun a b => a.1.pyEq b.1 = false)) :
    (pyPop m k).2 = m.filter (fun e => !(e.1.pyEq k)) := by
  unfold pyPop
  cases hf : m.find? (fun e => e.1.pyEq k) with
  | some e => simpa using eraseP_eq_filter_of_dk k m h
  | none =>
    simp only
    symm
    rw [List.filter_eq_self]
    intro b hb
    have hbf := List.find?_eq_none.mp hf b hb
    simpa using hbf

/-- Helper: zipping a key-preserving image with its source pairs equal keys
at every position. -/
theorem zip_map_fst_aligned (g : String → Val) :
    ∀ (l : List (String × Val)) (p : (String × Val) × (String × Val)),
      p ∈ (l.map (fun e => (e.1, g e.1))).zip l → p.1.1 = p.2.1
  | [], p, hp => absurd hp (by simp)
  | a :: tl, p, hp => by
    rw [List.map_cons, List.zip_cons_cons] at hp
    rcases List.mem_cons.mp hp with rfl | h
    · rfl
    · exact zip_map_fst_aligned g tl p h

/-- Helper: the child leaf diff never raises, because the old message dict
is built from exactly the new message dict's keys (lines 246-248). -/
theorem child_diff_ok (t : List (String × FieldInfo)) (ht : t.isEmpty = false)
    (nm : List (String × Val)) (od : Child) :
    ∃ recs, serializer_changed_data_diff (nm.map (fun e => (e.1, split_get od e.1)))
      nm none t = .ok recs := by
  unfold serializer_changed_data_diff
  rw [ht]
  simp only [Bool.false_eq_true, if_false]
  exact diffGo_ok_of_aligned t _
    (fun p hp => zip_map_fst_aligned (fun a => split_get od a) nm p hp)

/-- Helper: a child without the pk key contributes no popped key. -/
theorem newPks_cons_none (pk : String) (d : Child) (rest : List Child)
    (h : childGet d pk = none) : newPks pk (d :: rest) = newPks pk rest := by
  simp [newPks, h]

/-- Helper: a child with a falsy pk value contributes no popped key. -/
theorem newPks_cons_falsy (pk : String) (d : Child) (rest : List Child) (v : Val)
    (h : childGet d pk = some v) (hv : v.truthy = false) :
    newPks pk (d :: rest) = newPks pk rest := by
  simp [newPks, h, hv]

/-- Helper: a child with a truthy pk value contributes its resolved key. -/
theorem newPks_cons_truthy (pk : String) (d : Child) (rest : List Child) (v : Val)
    (h : childGet d pk = some v) (hv : v.truthy = true) :
    newPks pk (d :: rest) = resolvePk v :: newPks pk rest := by
  simp [newPks, h, hv]

/-- Helper: the reconciliation loop never raises, leaves in the old-children
map exactly the entries whose key `==`-matches no new child's truthy resolved
primary key, and emits no `Deleted{}` entry itself. -/
theorem reconcile_loop_spec (pk : String) (t : List (String × FieldInfo))
    (ht : t.isEmpty = false) :
    ∀ (news : List Child) (m : OldMap) (acc : List NestedEntry),
      m.Pairwise (fun a b => a.1.pyEq b.1 = false) →
      ∃ extra, reconcile_loop pk t news m acc
          = .ok (m.filter (fun e => !((newPks pk news).any (fun q => e.1.pyEq q))),
                 acc ++ extra)
        ∧ ∀ x ∈ extra, isDeleted x = false
  | [], m, acc, hdk => ⟨[], by simp [reconcile_loop, newPks], by simp⟩
  | d :: rest, m, acc, hdk => by
    cases hg : childGet d pk with
    | none =>
      have hstep : reconcile_step pk t (m, acc) d = .ok (m, acc ++ [.added]) := by
        simp [reconcile_step, hg]
      obtain ⟨extra, hloop, hnd⟩ := reconcile_loop_spec pk t ht rest m (acc ++ [.added]) hdk
      refine ⟨.added :: extra, ?_, ?_⟩
      · simp only [reconcile_loop, hstep]
        rw [hloop, newPks_cons_none pk d rest hg, List.append_assoc]
        rfl
      · intro x hx
        rcases List.mem_cons.mp hx with rfl | hx
        · rfl
        · exact hnd x hx
    | some v =>
      cases hv : v.truthy with
      | false =>
        have hstep : reconcile_step pk t (m, acc) d = .ok (m, acc ++ [.added]) := by
          simp [reconcile_step, hg, hv]
        obtain ⟨extra, hloop, hnd⟩ := reconcile_loop_spec pk t ht rest m (acc ++ [.added]) hdk
        refine ⟨.added :: extra, ?_, ?_⟩
        · simp only [reconcile_loop, hstep]
          rw [hloop, newPks_cons_falsy pk d rest v hg hv, List.append_assoc]
          rfl
        · intro x hx
          rcases List.mem_cons.mp hx with rfl | hx
          · rfl
          · exact hnd x hx
      | true =>
        have hdk1 : (m.filter (fun e => !(e.1.pyEq (resolvePk v)))).Pairwise
            (fun a b => a.1.pyEq b.1 = false) :=
          List.Pairwise.sublist (List.filter_sublist m) hdk
        have hmap : (m.filter (fun e => !(e.1.pyEq (resolvePk v)))).filter
              (fun e => !((newPks pk rest).any (fun q => e.1.pyEq q)))
            = m.filter (fun e => !((newPks pk (d :: rest)).any (fun q => e.1.pyEq q))) := by
          rw [List.filter_filter]
          apply List.filter_congr
          intro e he
          rw [newPks_cons_truthy pk d rest v hg hv, List.any_cons]
          cases h1 : e.1.pyEq (resolvePk v) <;>
            cases h2 : (newPks pk rest).any (fun q => e.1.pyEq q) <;> simp [h1, h2]
        cases hf : m.find? (fun e => e.1.pyEq (resolvePk v)) with
        | none =>
          have hpop : pyPop m (resolvePk v) = (none, m) := by
            unfold pyPop
            rw [hf]
          have hstep : reconcile_step pk t (m, acc) d = .ok (m, acc) := by
            simp [reconcile_step, hg, hv, hpop]
          obtain ⟨extra, hloop, hnd⟩ := reconcile_loop_spec pk t ht rest m acc hdk
          refine ⟨extra, ?_, hnd⟩
          simp only [reconcile_loop, hstep]
          rw [hloop]
          congr 2
          apply List.filter_congr
          intro e he
          have hek : e.1.pyEq (resolvePk v) = false := by
            have h5 := List.find?_eq_none.mp hf e he
            simpa using h5
          rw [newPks_cons_truthy pk d rest v hg hv, List.any_cons]
          simp [hek]
        | some epair =>
          have hpop : pyPop m (resolvePk v)
              = (some epair.2, m.filter (fun e => !(e.1.pyEq (resolvePk v)))) := by
            unfold pyPop
            rw [hf, eraseP_eq_filter_of_dk (resolvePk v) m hdk]
          obtain ⟨recs, hrecs⟩ := child_diff_ok t ht (childEraseKey d pk) epair.2
          cases hre : recs.isEmpty with
          | true =>
            have hstep : reconcile_step pk t (m, acc) d
                = .ok (m.filter (fun e => !(e.1.pyEq (resolvePk v))), acc) := by
              simp [reconcile_step, hg, hv, hpop, hrecs, hre]
            obtain ⟨extra, hloop, hnd⟩ := reconcile_loop_spec pk t ht rest
              (m.filter (fun e => !(e.1.pyEq (resolvePk v)))) acc hdk1
            refine ⟨extra, ?_, hnd⟩
            simp only [reconcile_loop, hstep]
            rw [hloop, hmap]
          | false =>
            have hstep : reconcile_step pk t (m, acc) d
                = .ok (m.filter (fun e => !(e.1.pyEq (resolvePk v))),
                       acc ++ [.changed recs]) := by
              simp [reconcile_step, hg, hv, hpop, hrecs, hre]
            obtain ⟨extra, hloop, hnd⟩ := reconcile_loop_spec pk t ht rest
              (m.filter (fun e => !(e.1.pyEq (resolvePk v)))) (acc ++ [.changed recs]) hdk1
            refine ⟨.changed recs :: extra, ?_, ?_⟩
            · simp only [reconcile_loop, hstep]
              rw [hloop, hmap, List.append_assoc]
              rfl
            · intro x hx
              rcases List.mem_cons.mp hx with rfl | hx
              · rfl
              · exact hnd x hx

/-- C2 (amended): when the new child list is non-empty (and the child
translation table truthy), reconciliation succeeds and emits exactly one
`Deleted{}` entry per old-map entry whose key matches no new child's truthy
primary key — one per unmatched old key; when the new snapshot contains no
children (absent or empty), the field is skipped entirely and no `Deleted{}`
entries are produced (see the counterexample). -/
theorem deleted_entries_count_per_unmatched_key (pk : String)
    (t : List (String × FieldInfo)) (news : List Child) (olds : List Child)
    (hne : news ≠ []) (ht : t.isEmpty = false) :
    ∃ entries, reconcile_children pk t (some news) olds = .ok entries ∧
      (entries.filter isDeleted).length
        = ((buildOldMap pk olds).filter
            (fun e => !((newPks pk news).any (fun q => e.1.pyEq q)))).length := by
  obtain ⟨extra, hloop, hnd⟩ :=
    reconcile_loop_spec pk t ht news (buildOldMap pk olds) [] (dk_buildOldMap pk olds)
  have hni : news.isEmpty = false := by
    cases news with
    | nil => exact absurd rfl hne
    | cons a l => rfl
  refine ⟨extra ++ ((buildOldMap pk olds).filter
      (fun e => !((newPks pk news).any (fun q => e.1.pyEq q)))).map
        (fun _ => .deleted), ?_, ?_⟩
  · simp only [reconcile_children, hni, Bool.false_eq_true, if_false]
    rw [hloop]
    simp
  · rw [List.filter_append]
    have h1 : extra.filter isDeleted = [] :=
      List.filter_eq_nil_iff.mpr (fun x hx => by simp [hnd x hx])
    have h2 : (((buildOldMap pk olds).filter
          (fun e => !((newPks pk news).any (fun q => e.1.pyEq q)))).map
            (fun _ => NestedEntry.deleted)).filter isDeleted
        = ((buildOldMap pk olds).filter
          (fun e => !((newPks pk news).any (fun q => e.1.pyEq q)))).map
            (fun _ => NestedEntry.deleted) := by
      rw [List.filter_eq_self]
      intro a ha
      rcases List.mem_map.mp ha with ⟨b, _, rfl⟩
      rfl
    rw [h1, h2]
    simp

/-- Witness for C2: one old child keyed `1`, one key-less new child: the
reconciliation emits exactly one deletion for the unmatched key. -/
theorem deleted_entries_count_per_unmatched_key_witness :
    ∃ entries, reconcile_children "id" [("qty", ⟨.plain, none⟩)]
        (some [[("qty", .vint 1)]]) [[("id", .vint 1), ("qty", .vint 2)]]
        = .ok entries ∧
      (entries.filter isDeleted).length
        = ((buildOldMap "id" [[("id", .vint 1), ("qty", .vint 2)]]).filter
            (fun e => !((newPks "id" [[("qty", .vint 1)]]).any
              (fun q => e.1.pyEq q)))).length :=
  deleted_entries_count_per_unmatched_key "id" [("qty", ⟨.plain, none⟩)]
    [[("qty", .vint 1)]] [[("id", .vint 1), ("qty", .vint 2)]] (by decide) rfl

/-- C2 counterexample: the old snapshot holds a child keyed `1` (shown by
the old-map evaluation) matched by no new child, yet with an empty new
snapshot the reconciliation emits no entries at all — zero `Deleted{}` —
so the claim's "including when the new snapshot contains no children" is
false. -/
theorem empty_new_snapshot_no_deleted_counterexample :
    reconcile_children "id" [("qty", ⟨.plain, none⟩)] (some [])
        [[("id", .vint 1), ("qty", .vint 2)]] = .ok []
    ∧ buildOldMap "id" [[("id", .vint 1), ("qty", .vint 2)]]
        = [(.vint 1, [("id", .vint 1), ("qty", .vint 2)])] := by
  exact ⟨rfl, rfl⟩

end DrfOpLog
